import Mathlib

/-!
Verification development for the household-bill tracker
(`src/App.tsx` / `src/unnamed/part_000`, with `src/constants.ts`).

The TypeScript source is shallowly embedded: the bill record, the
series-generation engine inside `handleSaveBill`, the aggregation
helpers (`stats`, `filteredBills`, `groupedBills`), the month helper
`getNextMonth`, and the orchestrator handlers (`toggleStatus`,
`deleteBill`, `handleSaveBill`, group handlers, fetch/sync) become Lean
functions over explicit state.  JavaScript numbers holding currency are
modelled as `Rat`; month tokens stay `String`s exactly as in the code,
with `String(n)` / `Number(s)` / `split('-')` modelled by executable
decimal printer/parser/splitter functions below.
-/

/-- Payment status of a bill, `'pendente' | 'pago'` in `types.ts`. -/
inductive Status where
  | pendente
  | pago
deriving DecidableEq, Repr

/-- One bill row (interface `Bill` in `types.ts`); `valor` (a JS number
holding a currency amount) is modelled as `Rat`, the optional installment
fields as `Option Nat`, optional `observacoes` as `Option String`. -/
structure Bill where
  id : String
  mes_ref : String
  nome : String
  valor : Rat
  grupo : String
  parcelado : Bool
  parcela_atual : Option Nat
  parcela_total : Option Nat
  status : Status
  fixa : Bool
  observacoes : Option String
deriving DecidableEq, Repr

/-- The `baseBill` object built by `handleSaveBill` from the form fields
(name, parsed amount, group, the two checkboxes, status, notes). -/
structure BaseBill where
  nome : String
  valor : Rat
  grupo : String
  parcelado : Bool
  fixa : Bool
  status : Status
  observacoes : Option String
deriving DecidableEq, Repr

/-! ### Decimal strings

`getNextMonth` in the source does
`monthStr.split('-').map(Number)` and rebuilds the token with a template
string and `String(nextMonth).padStart(2, '0')`.  We model `String(n)`
for naturals by `natToString`, `Number(s)` on all-digit strings by
`parseNat?` (like JS, the empty string parses to `0`), and
`split('-')` by `splitDash` (JS `split` with a one-character separator).
-/

/-- Big-endian decimal digits of `n`; the first argument is structural
fuel (any bound on the digit count, `n` itself suffices). -/
def natDigitsAux : Nat → Nat → List Nat
  | 0, _ => []
  | fuel + 1, n => if n = 0 then [] else natDigitsAux fuel (n / 10) ++ [n % 10]

/-- Decimal rendering of a natural number, as JS `String(n)` does. -/
def natToString (n : Nat) : String :=
  if n = 0 then "0" else String.mk ((natDigitsAux n n).map Nat.digitChar)

/-- Value of a decimal digit character, `none` on a non-digit. -/
def charToDigit? (c : Char) : Option Nat :=
  if c.isDigit then some (c.toNat - 48) else none

/-- Reads a list of characters as decimal digits; fails on any non-digit. -/
def parseDigitsAux : List Char → Option (List Nat)
  | [] => some []
  | c :: cs =>
    match charToDigit? c, parseDigitsAux cs with
    | some d, some ds => some (d :: ds)
    | _, _ => none

/-- JS `Number(s)` restricted to the digit strings that month tokens are
made of (like JS, `Number('') = 0`; any non-digit yields `none`,
standing for `NaN`). -/
def parseNat? (s : String) : Option Nat :=
  (parseDigitsAux s.data).map (fun ds => ds.foldl (fun a d => a * 10 + d) 0)

/-- Splitter for `s.split('-')` (JS split with a single-character
separator), accumulating the current fragment in reverse. -/
def splitDashAux : List Char → List Char → List (List Char)
  | [], acc => [acc.reverse]
  | c :: cs, acc =>
    if c = '-' then acc.reverse :: splitDashAux cs []
    else splitDashAux cs (c :: acc)

/-- JS `monthStr.split('-')`. -/
def splitDash (s : String) : List String :=
  (splitDashAux s.data []).map String.mk

/-- JS `String(n).padStart(2, '0')`. -/
def pad2 (n : Nat) : String :=
  let s := natToString n
  if s.length < 2 then "0" ++ s else s

/-- Renders the month token `` `${year}-${String(month).padStart(2,'0')}` ``. -/
def mkMonth (year month : Nat) : String :=
  natToString year ++ "-" ++ pad2 month

/-- Model of `getNextMonth` (App.tsx): split the token on `'-'`, read the
two numbers, increment the month with rollover at 12, re-render.  A token
that does not parse as two numbers would yield `NaN` artifacts in JS and
never arises from the UI; the model returns it unchanged. -/
def getNextMonth (monthStr : String) : String :=
  match (splitDash monthStr).map parseNat? with
  | [some year, some month] =>
    let nextMonth := month + 1
    if nextMonth > 12 then mkMonth (year + 1) 1 else mkMonth year nextMonth
  | _ => monthStr

/-- The token reached after `k` applications of `getNextMonth`. -/
def monthSeq (s : String) : Nat → String
  | 0 => s
  | k + 1 => getNextMonth (monthSeq s k)

/-- Reads a month token back as a `(year, month)` pair. -/
def parseMonth? (s : String) : Option (Nat × Nat) :=
  match (splitDash s).map parseNat? with
  | [some year, some month] => some (year, month)
  | _ => none

/-- Calendar successor on `(year, month)` pairs. -/
def calSucc : Nat × Nat → Nat × Nat
  | (y, m) => if m ≥ 12 then (y + 1, 1) else (y, m + 1)

/-- Linear index of a calendar month, used to order tokens. -/
def calIdx : Nat × Nat → Nat
  | (y, m) => y * 12 + m

/-- Linear calendar index of a month token, `none` if it does not parse. -/
def monthIdx? (s : String) : Option Nat :=
  (parseMonth? s).map calIdx

/-- A well-formed month token: rendered from a year and a month 1..12. -/
def validMonth (s : String) : Prop :=
  ∃ y m, 1 ≤ m ∧ m ≤ 12 ∧ s = mkMonth y m

/-- JS string `<` compares code units left to right; on the characters a
month token is made of this is lexicographic comparison of `Char` values. -/
def strLtb : List Char → List Char → Bool
  | _, [] => false
  | [], _ :: _ => true
  | a :: as, b :: bs =>
    if a.toNat = b.toNat then strLtb as bs else decide (a.toNat < b.toNat)

/-- JS `a >= b` on strings, i.e. `!(a < b)`. -/
def strGe (a b : String) : Bool :=
  !(strLtb a.data b.data)

/-! ### Series engine (`handleSaveBill` in App.tsx)

The duplicate key of a row is the triple `(nome, grupo, mes_ref)`;
`existsDup` is the `bills.some(...)` check used before inserting a row.
Row ids come from `generateId()` (clock + randomness); they are modelled
by an injected `genId : Nat → String` applied to a per-row index, since
no property here depends on their values. -/

/-- De-duplication key of a row. -/
def billKey (b : Bill) : String × String × String :=
  (b.nome, b.grupo, b.mes_ref)

/-- The collection invariant: at most one row per `(nome, grupo, mes_ref)`. -/
def NoDupKeys (bills : List Bill) : Prop :=
  (bills.map billKey).Nodup

/-- The `bills.some(b => b.nome === ... && b.grupo === ... && b.mes_ref === ...)`
duplicate check. -/
def existsDup (bills : List Bill) (nome grupo mes : String) : Bool :=
  bills.any (fun b => b.nome == nome && b.grupo == grupo && b.mes_ref == mes)

/-- The `value` fields of the `MONTHS` constant (constants.ts): the fixed
month sequence of the app, January through December 2026. -/
def MONTHS : List String :=
  ["2026-01", "2026-02", "2026-03", "2026-04", "2026-05", "2026-06",
   "2026-07", "2026-08", "2026-09", "2026-10", "2026-11", "2026-12"]

/-- The `GROUPS` constant (constants.ts). -/
def GROUPS : List String :=
  ["Geral", "Wil", "Nu B", "M.P", "Sicred", "Mercado"]

/-- Months targeted by the create-fixed path:
`startIndex = MONTHS.findIndex(m => m.value === selectedMonth)`,
then `MONTHS.slice(startIndex)`, falling back to `[selectedMonth]`. -/
def monthsToApplyCreate (selectedMonth : String) : List String :=
  match MONTHS.findIdx? (fun m => m == selectedMonth) with
  | some startIndex => MONTHS.drop startIndex
  | none => [selectedMonth]

/-- Months targeted by the edit-fixed path: `MONTHS.slice(startIndex + 1)`
from the original bill's month, falling back to `[]`. -/
def monthsToApplyEdit (origMes : String) : List String :=
  match MONTHS.findIdx? (fun m => m == origMes) with
  | some startIndex => MONTHS.drop (startIndex + 1)
  | none => []

/-- A generated row `{...baseBill, id, mes_ref, parcela_atual, parcela_total}`. -/
def mkBill (base : BaseBill) (id mes : String) (pa pt : Option Nat) : Bill :=
  { id := id, mes_ref := mes, nome := base.nome, valor := base.valor,
    grupo := base.grupo, parcelado := base.parcelado, parcela_atual := pa,
    parcela_total := pt, status := base.status, fixa := base.fixa,
    observacoes := base.observacoes }

/-- Create-fixed generation: one row per month of the list unless the
duplicate check (against the pre-existing collection) fires; installment
numbers are stamped unchanged on every row when `parcelado` is set, as the
source does. -/
def fixedRowsAux (bills : List Bill) (base : BaseBill) (pa pt : Nat)
    (genId : Nat → String) : List String → Nat → List Bill
  | [], _ => []
  | mes :: rest, idx =>
    (if existsDup bills base.nome base.grupo mes then []
     else [mkBill base (genId idx) mes (if base.parcelado then some pa else none)
            (if base.parcelado then some pt else none)])
      ++ fixedRowsAux bills base pa pt genId rest (idx + 1)

/-- Create-installment generation,
`for (let p = parcelaAtual; p <= parcelaTotal; p++)`, advancing the month
each iteration with `getNextMonth`; the structural fuel is the remaining
iteration count `parcelaTotal + 1 - p`. -/
def parceladoLoop (bills : List Bill) (base : BaseBill) (pt : Nat)
    (genId : Nat → String) : Nat → Nat → String → List Bill
  | 0, _, _ => []
  | fuel + 1, p, currentMonth =>
    (if existsDup bills base.nome base.grupo currentMonth then []
     else [mkBill base (genId p) currentMonth (some p) (some pt)])
      ++ parceladoLoop bills base pt genId fuel (p + 1) (getNextMonth currentMonth)

/-- The `billsToAdd` computed by the create branch of `handleSaveBill`:
fixed series, else installment series (when `parcelado` and total > 1),
else a single row at the selected month. -/
def createBillsToAdd (bills : List Bill) (base : BaseBill)
    (parcelaAtual parcelaTotal : Nat) (genId : Nat → String)
    (selectedMonth : String) : List Bill :=
  if base.fixa then
    fixedRowsAux bills base parcelaAtual parcelaTotal genId
      (monthsToApplyCreate selectedMonth) 0
  else if base.parcelado && decide (1 < parcelaTotal) then
    parceladoLoop bills base parcelaTotal genId
      (parcelaTotal + 1 - parcelaAtual) parcelaAtual selectedMonth
  else
    [mkBill base (genId 0) selectedMonth
      (if base.parcelado then some parcelaAtual else none)
      (if base.parcelado then some parcelaTotal else none)]

/-- Resulting collection of the create branch,
`setBills(prev => [...prev, ...billsToAdd])` (the source skips the state
update when `billsToAdd` is empty, which yields the same collection). -/
def handleSaveBillCreate (bills : List Bill) (base : BaseBill)
    (parcelaAtual parcelaTotal : Nat) (genId : Nat → String)
    (selectedMonth : String) : List Bill :=
  bills ++ createBillsToAdd bills base parcelaAtual parcelaTotal genId selectedMonth

/-- The future-sibling test of the edit cascade: same `nome` and `grupo` as
the bill being edited and `mes_ref >= ` its month (JS string `>=`). -/
def isFutureSibling (orig b : Bill) : Bool :=
  b.nome == orig.nome && b.grupo == orig.grupo && strGe b.mes_ref orig.mes_ref

/-- The cascade rewrite `{...b, nome, valor, grupo, fixa, observacoes}` applied
to a future sibling; all other fields of `b` are spread through unchanged. -/
def rewriteSibling (base : BaseBill) (b : Bill) : Bill :=
  { b with nome := base.nome, valor := base.valor, grupo := base.grupo,
           fixa := base.fixa, observacoes := base.observacoes }

/-- The `updatedBills` map of the edit branch. -/
def editFutureSiblings (orig : Bill) (base : BaseBill) (bills : List Bill) : List Bill :=
  bills.map (fun b => if isFutureSibling orig b then rewriteSibling base b else b)

/-- Rows added by the edit branch when the bill is (now) fixed: one fresh
`status: 'pendente'` row per later month that has no duplicate in
`updatedBills`; the spread of `baseBill` leaves the installment fields absent. -/
def editFixedRowsAux (updatedBills : List Bill) (base : BaseBill)
    (genId : Nat → String) : List String → Nat → List Bill
  | [], _ => []
  | mes :: rest, idx =>
    (if existsDup updatedBills base.nome base.grupo mes then []
     else [{ mkBill base (genId idx) mes none none with status := Status.pendente }])
      ++ editFixedRowsAux updatedBills base genId rest (idx + 1)

/-- The `finalBillsToAdd` of the edit branch. -/
def editBillsToAdd (orig : Bill) (base : BaseBill) (updatedBills : List Bill)
    (genId : Nat → String) : List Bill :=
  if base.fixa then editFixedRowsAux updatedBills base genId (monthsToApplyEdit orig.mes_ref) 0
  else []

/-- The `finalBillsState` of the edit branch of `handleSaveBill`. -/
def handleSaveBillEdit (orig : Bill) (base : BaseBill) (genId : Nat → String)
    (bills : List Bill) : List Bill :=
  let updatedBills := editFutureSiblings orig base bills
  updatedBills ++ editBillsToAdd orig base updatedBills genId

/-- The `billsToUpsert` filter the edit branch sends to the remote store. -/
def billsToUpsert (orig : Bill) (base : BaseBill) (finalBills : List Bill) : List Bill :=
  finalBills.filter (fun b =>
    b.nome == base.nome && b.grupo == base.grupo && strGe b.mes_ref orig.mes_ref)

/-! ### Aggregation (`filteredBills`, `stats`, `groupedBills` in App.tsx) -/

/-- The status filter chips, `'todos' | 'pendente' | 'pago'`. -/
inductive StatusFilter where
  | todos
  | pendente
  | pago
deriving DecidableEq, Repr

/-- The `filter === 'todos' || bill.status === filter` test. -/
def statusMatch (f : StatusFilter) (st : Status) : Bool :=
  f == StatusFilter.todos ||
    match f, st with
    | StatusFilter.pendente, Status.pendente => true
    | StatusFilter.pago, Status.pago => true
    | _, _ => false

/-- The `filteredBills` memo: rows of the selected month passing the filter. -/
def filteredBills (bills : List Bill) (selectedMonth : String)
    (f : StatusFilter) : List Bill :=
  bills.filter (fun bill => bill.mes_ref == selectedMonth && statusMatch f bill.status)

/-- Derived monthly totals (interface `MonthlyStats` in `types.ts`). -/
structure MonthlyStats where
  total : Rat
  pago : Rat
  pendente : Rat
deriving DecidableEq, Repr

/-- The `stats` memo: sums over the selected month excluding group
`'Mercado'`, split into total / paid / pending. -/
def stats (bills : List Bill) (selectedMonth : String) : MonthlyStats :=
  let monthBills := bills.filter (fun b => b.mes_ref == selectedMonth && b.grupo != "Mercado")
  { total := monthBills.foldl (fun acc b => acc + b.valor) 0
    pago := (monthBills.filter (fun b => b.status == Status.pago)).foldl
      (fun acc b => acc + b.valor) 0
    pendente := (monthBills.filter (fun b => b.status == Status.pendente)).foldl
      (fun acc b => acc + b.valor) 0 }

/-- The bucket of one group in the `groupedBills` memo; JS object grouping
keeps per-group insertion order, i.e. each bucket is a filter of the input. -/
def groupedBills (fb : List Bill) (grupo : String) : List Bill :=
  fb.filter (fun b => b.grupo == grupo)

/-- The `groupTotal` reduce computed per group card in the render. -/
def groupTotal (groupBills : List Bill) : Rat :=
  groupBills.foldl (fun acc b => acc + b.valor) 0

/-! ### Form input and JS number parsing for `handleSaveBill` -/

/-- The form fields read out of `FormData` by `handleSaveBill`; the two
installment counters default to 1 when blank, which is folded into the
`Nat` fields here. -/
structure FormInput where
  nome : String
  valor : String
  grupo : String
  parcelado : Bool
  fixa : Bool
  parcela_atual : Nat
  parcela_total : Nat
  status : Status
  observacoes : Option String
deriving DecidableEq, Repr

/-- JS `String.prototype.replace(',', '.')` replaces only the first match. -/
def replaceFirstCommaAux : List Char → List Char
  | [] => []
  | c :: cs => if c = ',' then '.' :: cs else c :: replaceFirstCommaAux cs

/-- The `valorStr = (...).replace(',', '.')` normalisation. -/
def replaceFirstComma (s : String) : String :=
  String.mk (replaceFirstCommaAux s.data)

/-- Value of a digit run read left to right. -/
def digitsVal (ds : List Char) : Nat :=
  ds.foldl (fun a c => a * 10 + (c.toNat - 48)) 0

/-- JS `parseFloat` on the decimal fragment the amount field produces:
optional sign, digit run, optional `'.'` and fraction run, reading the
longest numeric prefix; `none` stands for `NaN` (no leading number). -/
def parseFloat? (s : String) : Option Rat :=
  let signAndRest : Rat × List Char :=
    match s.data with
    | '-' :: rest => (-1, rest)
    | '+' :: rest => (1, rest)
    | cs => (1, cs)
  let intPart := signAndRest.2.takeWhile Char.isDigit
  let afterInt := signAndRest.2.dropWhile Char.isDigit
  let fracPart :=
    match afterInt with
    | '.' :: rest => rest.takeWhile Char.isDigit
    | _ => []
  if intPart.isEmpty && fracPart.isEmpty then none
  else
    some (signAndRest.1 *
      ((digitsVal intPart : Rat) + (digitsVal fracPart : Rat) / (10 ^ fracPart.length)))

/-- The `baseBill` object assembled from the form and the parsed amount. -/
def mkBase (form : FormInput) (valor : Rat) : BaseBill :=
  { nome := form.nome, valor := valor, grupo := form.grupo,
    parcelado := form.parcelado, fixa := form.fixa, status := form.status,
    observacoes := form.observacoes }

/-! ### Orchestrator state and handlers (App component)

`AppState` collects the pieces of state the claims are about: the
in-memory collection, the group list, the selected month, the decoded
LocalStorage snapshot under the bills key, the remote `bills` table, and
the sync indicator/error.  Remote calls are modelled by a `remoteOk`
parameter injected per operation: `true` means the call succeeds, `false`
that it rejects.  `window.confirm` / `prompt` outcomes are likewise
injected booleans. -/

structure AppState where
  bills : List Bill
  groups : List String
  selectedMonth : String
  localBills : Option (List Bill)
  remote : List Bill
  isSyncing : Bool
  syncError : Option String
  lastSync : Bool
deriving DecidableEq, Repr

/-- The `useEffect` persisting `bills`: it writes the serialized list to
LocalStorage only when the collection is non-empty. -/
def flushLocal (s : AppState) : AppState :=
  if s.bills.length > 0 then { s with localBills := some s.bills } else s

/-- A Supabase `upsert` of one row: replace the row with the same id, or
append. -/
def upsertRemote (remote : List Bill) (b : Bill) : List Bill :=
  if remote.any (fun r => r.id == b.id) then
    remote.map (fun r => if r.id == b.id then b else r)
  else remote ++ [b]

/-- A Supabase `upsert` of a list of rows. -/
def upsertManyRemote (remote : List Bill) (rows : List Bill) : List Bill :=
  rows.foldl upsertRemote remote

/-- The `'pago' ? 'pendente' : 'pago'` status flip in `toggleStatus`. -/
def flipStatus (st : Status) : Status :=
  if st == Status.pago then Status.pendente else Status.pago

/-- `syncBillToSupabase`: upsert one row; on failure only record the error
message; either way the syncing flag ends false. -/
def syncBillFn (bill : Bill) (remoteOk : Bool) (s : AppState) : AppState :=
  if remoteOk then
    { s with remote := upsertRemote s.remote bill, lastSync := true, isSyncing := false }
  else
    { s with syncError := some "Erro ao salvar na nuvem", isSyncing := false }

/-- `toggleStatus`: find the row, flip its status in the collection
(optimistically, flushing the snapshot), then sync that row. -/
def toggleStatusFn (id : String) (remoteOk : Bool) (s : AppState) : AppState :=
  match s.bills.find? (fun b => b.id == id) with
  | none => s
  | some billToUpdate =>
    let updatedBill := { billToUpdate with status := flipStatus billToUpdate.status }
    let s1 := flushLocal
      { s with bills := s.bills.map (fun bill => if bill.id == id then updatedBill else bill) }
    syncBillFn updatedBill remoteOk s1

/-- `deleteBill`: after the confirm dialog, drop the row locally (flushing
the snapshot) and delete it remotely; a remote failure only records the
error message. -/
def deleteBillFn (id : String) (confirmed remoteOk : Bool) (s : AppState) : AppState :=
  if confirmed then
    let s1 := flushLocal { s with bills := s.bills.filter (fun bill => bill.id != id) }
    if remoteOk then
      { s1 with remote := s1.remote.filter (fun r => r.id != id),
                lastSync := true, isSyncing := false }
    else
      { s1 with syncError := some "Erro ao excluir na nuvem", isSyncing := false }
  else s

/-- Edit half of `handleSaveBill` at the orchestrator level: run the
cascade on the collection, flush the snapshot, then upsert the affected
series; a remote failure only records the error message (its text carries
the underlying error in the source, abstracted here). -/
def handleSaveEditFn (base : BaseBill) (currentEditingBill : Bill)
    (genId : Nat → String) (remoteOk : Bool) (s0 : AppState) : AppState :=
  let finalBillsState := handleSaveBillEdit currentEditingBill base genId s0.bills
  let s1 := flushLocal { s0 with bills := finalBillsState }
  let toUpsert := billsToUpsert currentEditingBill base finalBillsState
  if remoteOk then
    { s1 with remote := upsertManyRemote s1.remote toUpsert,
              lastSync := true, isSyncing := false }
  else
    { s1 with syncError := some "Erro ao sincronizar", isSyncing := false }

/-- Create half of `handleSaveBill` at the orchestrator level: generate the
rows, extend the collection and flush when anything was generated, then
bulk-insert remotely. -/
def handleSaveCreateFn (base : BaseBill) (parcelaAtual parcelaTotal : Nat)
    (genId : Nat → String) (remoteOk : Bool) (s0 : AppState) : AppState :=
  let billsToAdd := createBillsToAdd s0.bills base parcelaAtual parcelaTotal genId
    s0.selectedMonth
  if billsToAdd.isEmpty then { s0 with isSyncing := false }
  else
    let s1 := flushLocal { s0 with bills := s0.bills ++ billsToAdd }
    if remoteOk then
      { s1 with remote := s1.remote ++ billsToAdd, lastSync := true, isSyncing := false }
    else
      { s1 with syncError := some "Erro ao sincronizar", isSyncing := false }

/-- Entry point of `handleSaveBill`: validate, assemble the base fields,
start the sync indicator, dispatch on edit versus create. -/
def handleSaveBillFn (form : FormInput) (editing : Option Bill)
    (genId : Nat → String) (remoteOk : Bool) (s : AppState) : AppState :=
  match parseFloat? (replaceFirstComma form.valor) with
  | none => s
  | some valor =>
    let base := mkBase form valor
    let s0 := { s with isSyncing := true, syncError := none }
    match editing with
    | some currentEditingBill => handleSaveEditFn base currentEditingBill genId remoteOk s0
    | none =>
      handleSaveCreateFn base form.parcela_atual form.parcela_total genId remoteOk s0

/-- `handleRenameGroup`: rename the group in the group list and on every
bill (flushing the snapshot), then upsert the affected rows; a remote
failure is only logged in the source (no error state). -/
def handleRenameGroupFn (oldName newName : String) (accepted remoteOk : Bool)
    (s : AppState) : AppState :=
  if accepted && newName != oldName && !(s.groups.contains newName) then
    let updatedBills := s.bills.map
      (fun b => if b.grupo == oldName then { b with grupo := newName } else b)
    let s1 := flushLocal
      { s with groups := s.groups.map (fun g => if g == oldName then newName else g),
               bills := updatedBills }
    let affectedBills := updatedBills.filter (fun b => b.grupo == newName)
    if affectedBills.isEmpty then s1
    else if remoteOk then
      { s1 with remote := upsertManyRemote s1.remote affectedBills,
                lastSync := true, isSyncing := false }
    else { s1 with isSyncing := false }
  else s

/-- `handleDeleteGroup`: after the confirm dialog, drop the group and all
its bills (flushing the snapshot), then delete those ids remotely; a
remote failure is only logged in the source. -/
def handleDeleteGroupFn (groupName : String) (confirmed remoteOk : Bool)
    (s : AppState) : AppState :=
  if confirmed then
    let billsToDelete := s.bills.filter (fun b => b.grupo == groupName)
    let s1 := flushLocal
      { s with bills := s.bills.filter (fun b => b.grupo != groupName),
               groups := s.groups.filter (fun g => g != groupName) }
    if billsToDelete.isEmpty then s1
    else
      let ids := billsToDelete.map Bill.id
      if remoteOk then
        { s1 with remote := s1.remote.filter (fun r => !(ids.contains r.id)),
                  lastSync := true, isSyncing := false }
      else { s1 with isSyncing := false }
  else s

/-- `forceSyncAll`: bulk upsert the whole collection. -/
def forceSyncAllFn (remoteOk : Bool) (s : AppState) : AppState :=
  if s.bills.isEmpty then s
  else if remoteOk then
    { s with remote := upsertManyRemote s.remote s.bills, lastSync := true,
             isSyncing := false, syncError := none }
  else
    { s with syncError := some "Erro ao sincronizar tudo", isSyncing := false }

/-- The `SEED_DATA` constant (constants.ts). -/
def SEED_DATA : List Bill :=
  [{ id := "550e8400-e29b-41d4-a716-446655440000", mes_ref := "2026-03", nome := "Casa",
     valor := 876, grupo := "Geral", parcelado := true, parcela_atual := some 5,
     parcela_total := some 12, status := .pendente, fixa := false, observacoes := none },
   { id := "550e8400-e29b-41d4-a716-446655440001", mes_ref := "2026-03", nome := "TV",
     valor := 35, grupo := "Geral", parcelado := false, parcela_atual := none,
     parcela_total := none, status := .pendente, fixa := true, observacoes := none },
   { id := "550e8400-e29b-41d4-a716-446655440002", mes_ref := "2026-03", nome := "Net",
     valor := 102, grupo := "Geral", parcelado := false, parcela_atual := none,
     parcela_total := none, status := .pendente, fixa := true, observacoes := none },
   { id := "550e8400-e29b-41d4-a716-446655440003", mes_ref := "2026-03", nome := "Condomínio",
     valor := 350, grupo := "Geral", parcelado := false, parcela_atual := none,
     parcela_total := none, status := .pendente, fixa := true, observacoes := none },
   { id := "550e8400-e29b-41d4-a716-446655440004", mes_ref := "2026-03", nome := "Luz",
     valor := 160, grupo := "Geral", parcelado := false, parcela_atual := none,
     parcela_total := none, status := .pendente, fixa := true, observacoes := none },
   { id := "550e8400-e29b-41d4-a716-446655440005", mes_ref := "2026-03", nome := "Seguro",
     valor := 85.5, grupo := "Geral", parcelado := false, parcela_atual := none,
     parcela_total := none, status := .pendente, fixa := true, observacoes := none },
   { id := "550e8400-e29b-41d4-a716-446655440006", mes_ref := "2026-03", nome := "IPTU",
     valor := 50.11, grupo := "Geral", parcelado := true, parcela_atual := some 1,
     parcela_total := some 6, status := .pendente, fixa := false, observacoes := none },
   { id := "550e8400-e29b-41d4-a716-446655440007", mes_ref := "2026-03", nome := "IPVA",
     valor := 31, grupo := "Geral", parcelado := false, parcela_atual := none,
     parcela_total := none, status := .pendente, fixa := false, observacoes := none },
   { id := "550e8400-e29b-41d4-a716-446655440008", mes_ref := "2026-03", nome := "Wil",
     valor := 32, grupo := "Wil", parcelado := true, parcela_atual := some 5,
     parcela_total := some 6, status := .pendente, fixa := false, observacoes := none },
   { id := "550e8400-e29b-41d4-a716-446655440009", mes_ref := "2026-03", nome := "Wil",
     valor := 50, grupo := "Wil", parcelado := true, parcela_atual := some 2,
     parcela_total := some 3, status := .pendente, fixa := false, observacoes := none },
   { id := "550e8400-e29b-41d4-a716-446655440010", mes_ref := "2026-03", nome := "Wil",
     valor := 35, grupo := "Wil", parcelado := true, parcela_atual := some 2,
     parcela_total := some 4, status := .pendente, fixa := false, observacoes := none },
   { id := "550e8400-e29b-41d4-a716-446655440011", mes_ref := "2026-03", nome := "Nu B",
     valor := 375, grupo := "Nu B", parcelado := true, parcela_atual := some 9,
     parcela_total := some 12, status := .pendente, fixa := false, observacoes := none },
   { id := "550e8400-e29b-41d4-a716-446655440012", mes_ref := "2026-03", nome := "Nu B",
     valor := 59.89, grupo := "Nu B", parcelado := true, parcela_atual := some 3,
     parcela_total := some 5, status := .pendente, fixa := false, observacoes := none },
   { id := "550e8400-e29b-41d4-a716-446655440013", mes_ref := "2026-03", nome := "Nu B",
     valor := 28.59, grupo := "Nu B", parcelado := true, parcela_atual := some 4,
     parcela_total := some 10, status := .pendente, fixa := false, observacoes := none },
   { id := "550e8400-e29b-41d4-a716-446655440014", mes_ref := "2026-03", nome := "Nu B",
     valor := 56.63, grupo := "Nu B", parcelado := true, parcela_atual := some 2,
     parcela_total := some 2, status := .pendente, fixa := false, observacoes := none },
   { id := "550e8400-e29b-41d4-a716-446655440015", mes_ref := "2026-03", nome := "M.P",
     valor := 70.79, grupo := "M.P", parcelado := true, parcela_atual := some 9,
     parcela_total := some 24, status := .pendente, fixa := false, observacoes := none },
   { id := "550e8400-e29b-41d4-a716-446655440016", mes_ref := "2026-03", nome := "Sicred",
     valor := 255.86, grupo := "Sicred", parcelado := false, parcela_atual := none,
     parcela_total := none, status := .pendente, fixa := false, observacoes := none }]

/-- The mount effect: adopt the LocalStorage snapshot if present, else the
seed data; the bills-persisting effect then runs. -/
def mountLoadFn (s : AppState) : AppState :=
  match s.localBills with
  | some savedData => flushLocal { s with bills := savedData }
  | none => flushLocal { s with bills := SEED_DATA }

/-- `fetchBillsFromSupabase`: on transport failure record the error; if the
remote set is non-empty adopt it; if it is empty push the local snapshot
when one exists (`insertOk` models that insert), else seed the remote
store and adopt the seed locally. -/
def fetchBillsFn (remoteOk insertOk : Bool) (s : AppState) : AppState :=
  if !remoteOk then
    { s with syncError := some "Erro de conexão com a nuvem", isSyncing := false }
  else if !s.remote.isEmpty then
    flushLocal { s with bills := s.remote, lastSync := true, syncError := none,
                        isSyncing := false }
  else
    match s.localBills with
    | some localBills =>
      if localBills.isEmpty then { s with syncError := none, isSyncing := false }
      else if insertOk then
        { s with remote := s.remote ++ localBills, lastSync := true, syncError := none,
                 isSyncing := false }
      else { s with syncError := none, isSyncing := false }
    | none =>
      if insertOk then
        flushLocal { s with remote := s.remote ++ SEED_DATA, bills := SEED_DATA,
                            lastSync := true, syncError := none, isSyncing := false }
      else { s with syncError := none, isSyncing := false }

/-- State before the App component mounts: empty collection, default
groups and selected month, arbitrary LocalStorage and remote contents. -/
def initialState (localData : Option (List Bill)) (remoteData : List Bill) : AppState :=
  { bills := [], groups := GROUPS, selectedMonth := "2026-03", localBills := localData,
    remote := remoteData, isSyncing := false, syncError := none, lastSync := false }

/-- One orchestrator transition: a lifecycle step or a user mutation, with
the dialog and remote outcomes chosen by the environment. -/
inductive Step : AppState → AppState → Prop where
  | mount (s : AppState) : Step s (mountLoadFn s)
  | fetch (s : AppState) (remoteOk insertOk : Bool) : Step s (fetchBillsFn remoteOk insertOk s)
  | selectMonth (s : AppState) (m : String) (hm : m ∈ MONTHS) :
      Step s { s with selectedMonth := m }
  | toggle (s : AppState) (id : String) (remoteOk : Bool) :
      Step s (toggleStatusFn id remoteOk s)
  | del (s : AppState) (id : String) (confirmed remoteOk : Bool) :
      Step s (deleteBillFn id confirmed remoteOk s)
  | save (s : AppState) (form : FormInput) (editing : Option Bill)
      (genId : Nat → String) (remoteOk : Bool) :
      Step s (handleSaveBillFn form editing genId remoteOk s)
  | renameGroup (s : AppState) (oldName newName : String) (accepted remoteOk : Bool) :
      Step s (handleRenameGroupFn oldName newName accepted remoteOk s)
  | deleteGroup (s : AppState) (groupName : String) (confirmed remoteOk : Bool) :
      Step s (handleDeleteGroupFn groupName confirmed remoteOk s)
  | syncAll (s : AppState) (remoteOk : Bool) : Step s (forceSyncAllFn remoteOk s)

/-- States the orchestrator can reach from some pre-mount state. -/
def Reachable (s : AppState) : Prop :=
  ∃ localData remoteData,
    Relation.ReflTransGen Step (initialState localData remoteData) s

/-- A sample row used to instantiate theorems at concrete states. -/
def sampleBill : Bill :=
  { id := "b1", mes_ref := "2026-03", nome := "Net", valor := 10, grupo := "Geral",
    parcelado := false, parcela_atual := none, parcela_total := none,
    status := .pendente, fixa := false, observacoes := none }

/-- A sample set of base fields used to instantiate theorems. -/
def sampleBase : BaseBill :=
  { nome := "Net Fibra", valor := 120, grupo := "Geral", parcelado := false,
    fixa := false, status := .pendente, observacoes := none }

/-- A sample installment base (the "Internet" scenario of the spec). -/
def sampleBaseParc : BaseBill :=
  { nome := "Internet", valor := 100, grupo := "Geral", parcelado := true,
    fixa := false, status := .pendente, observacoes := none }

/-- A deterministic id supply used to instantiate theorems. -/
def sampleGenId : Nat → String :=
  fun k => natToString k

/-- A sample fixed-bill base used to instantiate theorems. -/
def sampleBaseFix : BaseBill :=
  { nome := "Aluguel", valor := 800, grupo := "Geral", parcelado := false,
    fixa := true, status := .pendente, observacoes := none }

/-- A form whose amount field is not numeric. -/
def sampleFormBad : FormInput :=
  { nome := "X", valor := "abc", grupo := "Geral", parcelado := false, fixa := false,
    parcela_atual := 1, parcela_total := 1, status := .pendente, observacoes := none }

/-- A form with a well-formed amount field. -/
def sampleFormGood : FormInput :=
  { nome := "Net", valor := "100", grupo := "Geral", parcelado := false, fixa := false,
    parcela_atual := 1, parcela_total := 1, status := .pendente, observacoes := none }

/-- A small concrete app state used to instantiate theorems. -/
def sampleState : AppState :=
  { bills := [sampleBill], groups := GROUPS, selectedMonth := "2026-03",
    localBills := some [sampleBill], remote := [sampleBill], isSyncing := false,
    syncError := none, lastSync := false }

/-! ### Round-trip lemmas for the decimal print/parse/split functions -/

theorem charToDigit?_digitChar {d : Nat} (h : d < 10) :
    charToDigit? (Nat.digitChar d) = some d := by
  interval_cases d <;> decide

theorem digitChar_ne_dash {d : Nat} (h : d < 10) : Nat.digitChar d ≠ '-' := by
  interval_cases d <;> decide

theorem natDigitsAux_lt {fuel n d : Nat} (h : d ∈ natDigitsAux fuel n) : d < 10 := by
  induction fuel generalizing n with
  | zero => simp [natDigitsAux] at h
  | succ fuel ih =>
    by_cases hn : n = 0
    · simp [natDigitsAux, hn] at h
    · simp only [natDigitsAux, if_neg hn, List.mem_append, List.mem_singleton] at h
      rcases h with h | h
      · exact ih h
      · subst h; exact Nat.mod_lt _ (by norm_num)

theorem parseDigitsAux_map_digitChar {ds : List Nat} (h : ∀ d ∈ ds, d < 10) :
    parseDigitsAux (ds.map Nat.digitChar) = some ds := by
  induction ds with
  | nil => rfl
  | cons d ds ih =>
    have hd : d < 10 := h d (by simp)
    have hds : ∀ x ∈ ds, x < 10 := fun x hx => h x (by simp [hx])
    simp [parseDigitsAux, charToDigit?_digitChar hd, ih hds]

theorem foldl_natDigitsAux {fuel : Nat} : ∀ {n acc : Nat}, n ≤ fuel →
    (natDigitsAux fuel n).foldl (fun a d => a * 10 + d) acc =
      acc * 10 ^ (natDigitsAux fuel n).length + n := by
  induction fuel with
  | zero =>
    intro n acc h
    interval_cases n
    simp [natDigitsAux]
  | succ fuel ih =>
    intro n acc h
    by_cases hn : n = 0
    · simp [natDigitsAux, hn]
    · have hdiv : n / 10 ≤ fuel := by
        have : n / 10 < n := Nat.div_lt_self (Nat.pos_of_ne_zero hn) (by norm_num)
        omega
      simp only [natDigitsAux, if_neg hn, List.foldl_append, List.length_append,
        List.foldl_cons, List.foldl_nil, List.length_cons, List.length_nil]
      rw [ih hdiv]
      have hmod : 10 * (n / 10) + n % 10 = n := Nat.div_add_mod n 10
      ring_nf
      omega

theorem parseNat?_natToString (n : Nat) : parseNat? (natToString n) = some n := by
  by_cases hn : n = 0
  · subst hn; decide
  · have hall : ∀ d ∈ natDigitsAux n n, d < 10 := fun _ h => natDigitsAux_lt h
    simp only [parseNat?, natToString, if_neg hn]
    rw [parseDigitsAux_map_digitChar hall]
    simp [foldl_natDigitsAux (Nat.le_refl n)]

theorem dash_not_mem_natToString (n : Nat) : '-' ∉ (natToString n).data := by
  by_cases hn : n = 0
  · subst hn; decide
  · simp only [natToString, if_neg hn]
    intro hmem
    rcases List.mem_map.mp hmem with ⟨d, hd, hEq⟩
    exact digitChar_ne_dash (natDigitsAux_lt hd) hEq

theorem dash_not_mem_pad2 {m : Nat} : '-' ∉ (pad2 m).data := by
  intro hmem
  simp only [pad2] at hmem
  by_cases h : (natToString m).length < 2
  · rw [if_pos h, String.data_append] at hmem
    rcases List.mem_append.mp hmem with h0 | h0
    · simp only [show ("0" : String).data = ['0'] from rfl] at h0
      simp at h0
    · exact dash_not_mem_natToString m h0
  · rw [if_neg h] at hmem
    exact dash_not_mem_natToString m hmem

theorem splitDashAux_no_dash {cs : List Char} (h : '-' ∉ cs) :
    ∀ acc, splitDashAux cs acc = [acc.reverse ++ cs] := by
  induction cs with
  | nil => intro acc; simp [splitDashAux]
  | cons c cs ih =>
    intro acc
    have hc : ¬ c = '-' := fun hEq => h (hEq ▸ List.mem_cons_self c cs)
    have hcs : '-' ∉ cs := fun hm => h (List.mem_cons_of_mem c hm)
    simp [splitDashAux, if_neg hc, ih hcs]

theorem splitDashAux_append {a : List Char} (ha : '-' ∉ a) (b : List Char) :
    ∀ acc, splitDashAux (a ++ '-' :: b) acc = (acc.reverse ++ a) :: splitDashAux b [] := by
  induction a with
  | nil => intro acc; simp [splitDashAux]
  | cons c cs ih =>
    intro acc
    have hc : ¬ c = '-' := fun hEq => ha (hEq ▸ List.mem_cons_self c cs)
    have hcs : '-' ∉ cs := fun hm => ha (List.mem_cons_of_mem c hm)
    simp [splitDashAux, if_neg hc, ih hcs]

theorem splitDash_append {x y : String} (hx : '-' ∉ x.data) (hy : '-' ∉ y.data) :
    splitDash (x ++ "-" ++ y) = [x, y] := by
  have hdata : (x ++ "-" ++ y).data = x.data ++ '-' :: y.data := by
    simp [String.data_append]
  simp only [splitDash, hdata, splitDashAux_append hx, splitDashAux_no_dash hy,
    List.reverse_nil, List.nil_append, List.map_cons, List.map_nil]

theorem splitDash_mkMonth (y m : Nat) :
    splitDash (mkMonth y m) = [natToString y, pad2 m] :=
  splitDash_append (dash_not_mem_natToString y) dash_not_mem_pad2

theorem parseNat?_pad2 {m : Nat} (h1 : 1 ≤ m) (h2 : m ≤ 12) :
    parseNat? (pad2 m) = some m := by
  interval_cases m <;> decide

theorem parseMonth?_mkMonth {y m : Nat} (h1 : 1 ≤ m) (h2 : m ≤ 12) :
    parseMonth? (mkMonth y m) = some (y, m) := by
  simp [parseMonth?, splitDash_mkMonth, parseNat?_natToString, parseNat?_pad2 h1 h2]

theorem getNextMonth_mkMonth {y m : Nat} (h1 : 1 ≤ m) (h2 : m ≤ 12) :
    getNextMonth (mkMonth y m) = mkMonth (calSucc (y, m)).1 (calSucc (y, m)).2 := by
  simp only [getNextMonth, splitDash_mkMonth, List.map_cons, List.map_nil,
    parseNat?_natToString, parseNat?_pad2 h1 h2, calSucc]
  by_cases hm : m = 12
  · subst hm; norm_num
  · have hlt : m + 1 ≤ 12 := by omega
    have : ¬ m + 1 > 12 := by omega
    have : ¬ m ≥ 12 := by omega
    simp [*]

theorem calSucc_bounds {y m : Nat} (h1 : 1 ≤ m) (h2 : m ≤ 12) :
    1 ≤ (calSucc (y, m)).2 ∧ (calSucc (y, m)).2 ≤ 12 := by
  simp only [calSucc]
  by_cases hm : m ≥ 12
  · simp [hm]
  · simp only [if_neg hm]
    omega

theorem calIdx_calSucc {y m : Nat} (h1 : 1 ≤ m) (h2 : m ≤ 12) :
    calIdx (calSucc (y, m)) = calIdx (y, m) + 1 := by
  simp only [calSucc, calIdx]
  by_cases hm : m ≥ 12
  · have hm12 : m = 12 := by omega
    subst hm12
    simp only [if_pos (le_refl 12)]
    omega
  · simp only [if_neg hm]
    omega

theorem validMonth_mkMonth {y m : Nat} (h1 : 1 ≤ m) (h2 : m ≤ 12) :
    validMonth (mkMonth y m) :=
  ⟨y, m, h1, h2, rfl⟩

theorem monthSeq_shift (s : String) (k : Nat) :
    monthSeq (getNextMonth s) k = monthSeq s (k + 1) := by
  induction k with
  | zero => rfl
  | succ k ih => simp [monthSeq, ih]

theorem monthSeq_valid_idx {s : String} (hv : validMonth s) (k : Nat) :
    validMonth (monthSeq s k) ∧
      ∃ i, monthIdx? s = some i ∧ monthIdx? (monthSeq s k) = some (i + k) := by
  induction k with
  | zero =>
    rcases hv with ⟨y, m, h1, h2, hEq⟩
    subst hEq
    exact ⟨validMonth_mkMonth h1 h2,
      calIdx (y, m), by simp [monthIdx?, parseMonth?_mkMonth h1 h2], by
        simp [monthSeq, monthIdx?, parseMonth?_mkMonth h1 h2]⟩
  | succ k ih =>
    rcases ih with ⟨⟨y, m, h1, h2, hEq⟩, i, hi, hik⟩
    have hnext : getNextMonth (monthSeq s k) = mkMonth (calSucc (y, m)).1 (calSucc (y, m)).2 := by
      rw [hEq]; exact getNextMonth_mkMonth h1 h2
    have hb := calSucc_bounds (y := y) h1 h2
    refine ⟨?_, i, hi, ?_⟩
    · show validMonth (getNextMonth (monthSeq s k))
      rw [hnext]
      exact validMonth_mkMonth hb.1 hb.2
    · show monthIdx? (getNextMonth (monthSeq s k)) = some (i + (k + 1))
      rw [hnext]
      have hparse : parseMonth? (mkMonth (calSucc (y, m)).1 (calSucc (y, m)).2)
          = some ((calSucc (y, m)).1, (calSucc (y, m)).2) :=
        parseMonth?_mkMonth hb.1 hb.2
      have hidx : monthIdx? (monthSeq s k) = some (calIdx (y, m)) := by
        rw [hEq]; simp [monthIdx?, parseMonth?_mkMonth h1 h2]
      have : calIdx (y, m) = i + k := by
        rw [hidx] at hik; exact Option.some.inj hik
      simp only [monthIdx?, hparse, Option.map_some']
      have hcs : calIdx ((calSucc (y, m)).1, (calSucc (y, m)).2) = calIdx (y, m) + 1 :=
        calIdx_calSucc h1 h2
      rw [hcs, this]
      congr 1


/-! ### Claims about the edit cascade (C1, C2) -/

theorem isFutureSibling_iff (orig b : Bill) :
    isFutureSibling orig b = true ↔
      (b.nome = orig.nome ∧ b.grupo = orig.grupo ∧ strGe b.mes_ref orig.mes_ref = true) := by
  simp [isFutureSibling, Bool.and_eq_true, beq_iff_eq, and_assoc]

theorem editFutureSiblings_get (orig : Bill) (base : BaseBill) (bills : List Bill)
    (i : Nat) (h1 : i < bills.length) (h2 : i < (editFutureSiblings orig base bills).length) :
    (editFutureSiblings orig base bills).get ⟨i, h2⟩ =
      if isFutureSibling orig (bills.get ⟨i, h1⟩)
      then rewriteSibling base (bills.get ⟨i, h1⟩) else bills.get ⟨i, h1⟩ := by
  simp [editFutureSiblings, List.get_eq_getElem, List.getElem_map]

/-- C1: editing a bill rewrites exactly the rows agreeing with the original
bill's `nome` and `grupo` whose `mes_ref` is at or after the original
month; every other row comes out of the cascade unchanged, at its
position. -/
theorem editCascade_scope (orig : Bill) (base : BaseBill) (bills : List Bill) :
    (editFutureSiblings orig base bills).length = bills.length ∧
    ∀ i (h1 : i < bills.length) (h2 : i < (editFutureSiblings orig base bills).length),
      ((bills.get ⟨i, h1⟩).nome = orig.nome ∧ (bills.get ⟨i, h1⟩).grupo = orig.grupo ∧
          strGe (bills.get ⟨i, h1⟩).mes_ref orig.mes_ref = true →
        (editFutureSiblings orig base bills).get ⟨i, h2⟩ =
          rewriteSibling base (bills.get ⟨i, h1⟩)) ∧
      (¬ ((bills.get ⟨i, h1⟩).nome = orig.nome ∧ (bills.get ⟨i, h1⟩).grupo = orig.grupo ∧
          strGe (bills.get ⟨i, h1⟩).mes_ref orig.mes_ref = true) →
        (editFutureSiblings orig base bills).get ⟨i, h2⟩ = bills.get ⟨i, h1⟩) := by
  refine ⟨by simp [editFutureSiblings], fun i h1 h2 => ⟨fun hsib => ?_, fun hnot => ?_⟩⟩
  · rw [editFutureSiblings_get orig base bills i h1 h2,
      if_pos ((isFutureSibling_iff orig _).mpr hsib)]
  · rw [editFutureSiblings_get orig base bills i h1 h2, if_neg]
    intro htrue
    exact hnot ((isFutureSibling_iff orig _).mp htrue)

theorem editCascade_scope_instance :
    (editFutureSiblings sampleBill sampleBase [sampleBill]).get ⟨0, by decide⟩
      = rewriteSibling sampleBase sampleBill :=
  ((editCascade_scope sampleBill sampleBase [sampleBill]).2 0 (by decide) (by decide)).1
    (by decide)

/-- C2: a future sibling rewritten by the cascade takes `nome`, `valor`,
`grupo`, `fixa`, `observacoes` from the new base values and keeps its own
`status`, `parcela_atual`, `id`, `mes_ref`, `parcelado`, `parcela_total`. -/
theorem editCascade_preserves_rowState (orig : Bill) (base : BaseBill) (bills : List Bill)
    (i : Nat) (h1 : i < bills.length) (h2 : i < (editFutureSiblings orig base bills).length)
    (hsib : (bills.get ⟨i, h1⟩).nome = orig.nome ∧ (bills.get ⟨i, h1⟩).grupo = orig.grupo ∧
      strGe (bills.get ⟨i, h1⟩).mes_ref orig.mes_ref = true) :
    ((editFutureSiblings orig base bills).get ⟨i, h2⟩).nome = base.nome ∧
    ((editFutureSiblings orig base bills).get ⟨i, h2⟩).valor = base.valor ∧
    ((editFutureSiblings orig base bills).get ⟨i, h2⟩).grupo = base.grupo ∧
    ((editFutureSiblings orig base bills).get ⟨i, h2⟩).fixa = base.fixa ∧
    ((editFutureSiblings orig base bills).get ⟨i, h2⟩).observacoes = base.observacoes ∧
    ((editFutureSiblings orig base bills).get ⟨i, h2⟩).status = (bills.get ⟨i, h1⟩).status ∧
    ((editFutureSiblings orig base bills).get ⟨i, h2⟩).parcela_atual
      = (bills.get ⟨i, h1⟩).parcela_atual ∧
    ((editFutureSiblings orig base bills).get ⟨i, h2⟩).id = (bills.get ⟨i, h1⟩).id ∧
    ((editFutureSiblings orig base bills).get ⟨i, h2⟩).mes_ref = (bills.get ⟨i, h1⟩).mes_ref ∧
    ((editFutureSiblings orig base bills).get ⟨i, h2⟩).parcelado = (bills.get ⟨i, h1⟩).parcelado ∧
    ((editFutureSiblings orig base bills).get ⟨i, h2⟩).parcela_total
      = (bills.get ⟨i, h1⟩).parcela_total := by
  rw [editFutureSiblings_get orig base bills i h1 h2,
    if_pos ((isFutureSibling_iff orig _).mpr hsib)]
  simp [rewriteSibling]

theorem editCascade_preserves_rowState_instance :
    ((editFutureSiblings sampleBill sampleBase [sampleBill]).get ⟨0, by decide⟩).status
        = sampleBill.status ∧
      ((editFutureSiblings sampleBill sampleBase [sampleBill]).get
        ⟨0, by decide⟩).parcela_atual = sampleBill.parcela_atual :=
  ⟨((editCascade_preserves_rowState sampleBill sampleBase [sampleBill] 0 (by decide)
      (by decide) (by decide)).2.2.2.2.2).1,
   ((editCascade_preserves_rowState sampleBill sampleBase [sampleBill] 0 (by decide)
      (by decide) (by decide)).2.2.2.2.2).2.1⟩

/-! ### Claim about aggregation (C6) -/

theorem foldl_add_map (f : Bill → Rat) (l : List Bill) :
    ∀ acc : Rat, l.foldl (fun a b => a + f b) acc = acc + (l.map f).sum := by
  induction l with
  | nil => intro acc; simp
  | cons b l ih => intro acc; simp [ih, add_assoc]

/-- C6: the monthly stats sum `valor` exactly over the selected month's
rows outside group `'Mercado'` (split total / paid / pending), so rows of
the extra group never contribute to them, while `groupedBills` still
carries that month's `'Mercado'` rows with a subtotal summing all their
`valor` values. -/
theorem monthlyStats_mercado_exclusion (bills : List Bill) (mes : String) :
    (stats bills mes).total =
      ((bills.filter (fun b => decide (b.mes_ref = mes ∧ b.grupo ≠ "Mercado"))).map
        Bill.valor).sum ∧
    (stats bills mes).pago =
      ((bills.filter (fun b =>
        decide (b.mes_ref = mes ∧ b.grupo ≠ "Mercado" ∧ b.status = Status.pago))).map
        Bill.valor).sum ∧
    (stats bills mes).pendente =
      ((bills.filter (fun b =>
        decide (b.mes_ref = mes ∧ b.grupo ≠ "Mercado" ∧ b.status = Status.pendente))).map
        Bill.valor).sum ∧
    stats bills mes = stats (bills.filter (fun b => decide (b.grupo ≠ "Mercado"))) mes ∧
    groupedBills (filteredBills bills mes StatusFilter.todos) "Mercado" =
      bills.filter (fun b => decide (b.mes_ref = mes ∧ b.grupo = "Mercado")) ∧
    groupTotal (groupedBills (filteredBills bills mes StatusFilter.todos) "Mercado") =
      ((bills.filter (fun b => decide (b.mes_ref = mes ∧ b.grupo = "Mercado"))).map
        Bill.valor).sum := by
  have hgrouped : groupedBills (filteredBills bills mes StatusFilter.todos) "Mercado" =
      bills.filter (fun b => decide (b.mes_ref = mes ∧ b.grupo = "Mercado")) := by
    simp only [groupedBills, filteredBills, statusMatch, List.filter_filter]
    apply List.filter_congr
    intro b _
    by_cases h1 : b.mes_ref = mes <;> by_cases h2 : b.grupo = "Mercado" <;>
      simp [h1, h2]
  have hfilt1 : bills.filter (fun b => b.mes_ref == mes && b.grupo != "Mercado") =
      bills.filter (fun b => decide (b.mes_ref = mes ∧ b.grupo ≠ "Mercado")) := by
    apply List.filter_congr
    intro b _
    by_cases h1 : b.mes_ref = mes <;> by_cases h2 : b.grupo = "Mercado" <;>
      simp [h1, h2]
  refine ⟨?_, ?_, ?_, ?_, hgrouped, ?_⟩
  · simp only [stats, foldl_add_map, zero_add, hfilt1]
  · simp only [stats, foldl_add_map, zero_add, List.filter_filter]
    have hf : bills.filter (fun a => a.status == Status.pago &&
          (a.mes_ref == mes && a.grupo != "Mercado")) =
        bills.filter (fun b =>
          decide (b.mes_ref = mes ∧ b.grupo ≠ "Mercado" ∧ b.status = Status.pago)) := by
      apply List.filter_congr
      intro b _
      by_cases h1 : b.mes_ref = mes <;> by_cases h2 : b.grupo = "Mercado" <;>
        by_cases h3 : b.status = Status.pago <;> simp [h1, h2, h3]
    rw [hf]
  · simp only [stats, foldl_add_map, zero_add, List.filter_filter]
    have hf : bills.filter (fun a => a.status == Status.pendente &&
          (a.mes_ref == mes && a.grupo != "Mercado")) =
        bills.filter (fun b =>
          decide (b.mes_ref = mes ∧ b.grupo ≠ "Mercado" ∧ b.status = Status.pendente)) := by
      apply List.filter_congr
      intro b _
      by_cases h1 : b.mes_ref = mes <;> by_cases h2 : b.grupo = "Mercado" <;>
        by_cases h3 : b.status = Status.pendente <;> simp [h1, h2, h3]
    rw [hf]
  · have hmb : (bills.filter (fun b => decide (b.grupo ≠ "Mercado"))).filter
        (fun b => b.mes_ref == mes && b.grupo != "Mercado") =
        bills.filter (fun b => b.mes_ref == mes && b.grupo != "Mercado") := by
      rw [List.filter_filter]
      apply List.filter_congr
      intro b _
      by_cases h1 : b.mes_ref = mes <;> by_cases h2 : b.grupo = "Mercado" <;>
        simp [h1, h2]
    simp only [stats]
    rw [hmb]
  · rw [hgrouped]
    simp [groupTotal, foldl_add_map]

/-! ### Claims about month arithmetic and installment generation (C5, C4) -/

/-- C5 as stated is refuted: the source advances the year on rollover, so
advancing "2026-12" does not yield the token "2026-01". -/
theorem getNextMonth_december_cex : getNextMonth "2026-12" ≠ "2026-01" := by
  decide

/-- C5 (amended): advancing "2026-12" yields "2027-01", January of the
following year; and from any valid starting token, the k-th month walked
by installment generation has calendar index `start + k`, so the token
sequence is strictly increasing and contiguous (each token is the
immediate calendar successor of the previous one). -/
theorem getNextMonth_rollover_succ :
    getNextMonth "2026-12" = "2027-01" ∧
    ∀ y m k, 1 ≤ m → m ≤ 12 →
      monthIdx? (monthSeq (mkMonth y m) k) = some (calIdx (y, m) + k) := by
  refine ⟨by decide, fun y m k h1 h2 => ?_⟩
  rcases (monthSeq_valid_idx (validMonth_mkMonth h1 h2) k).2 with ⟨i, hi, hik⟩
  have hstart : monthIdx? (mkMonth y m) = some (calIdx (y, m)) := by
    simp [monthIdx?, parseMonth?_mkMonth h1 h2]
  rw [hstart] at hi
  cases Option.some.inj hi
  exact hik

theorem getNextMonth_rollover_succ_instance :
    monthIdx? (monthSeq (mkMonth 2026 12) 2) = some (calIdx (2026, 12) + 2) :=
  getNextMonth_rollover_succ.2 2026 12 2 (by decide) (by decide)

theorem parceladoLoop_eq_filterMap (bills : List Bill) (base : BaseBill) (pt : Nat)
    (genId : Nat → String) :
    ∀ (fuel p : Nat) (cur : String),
      parceladoLoop bills base pt genId fuel p cur =
        (List.range fuel).filterMap (fun k =>
          if existsDup bills base.nome base.grupo (monthSeq cur k) then none
          else some (mkBill base (genId (p + k)) (monthSeq cur k)
            (some (p + k)) (some pt))) := by
  intro fuel
  induction fuel with
  | zero => intro p cur; rfl
  | succ fuel ih =>
    intro p cur
    rw [List.range_succ_eq_map, List.filterMap_cons, List.filterMap_map]
    have hcomp : ((fun k =>
          if existsDup bills base.nome base.grupo (monthSeq cur k) then none
          else some (mkBill base (genId (p + k)) (monthSeq cur k)
            (some (p + k)) (some pt))) ∘ Nat.succ) =
        (fun k =>
          if existsDup bills base.nome base.grupo (monthSeq (getNextMonth cur) k) then none
          else some (mkBill base (genId ((p + 1) + k)) (monthSeq (getNextMonth cur) k)
            (some ((p + 1) + k)) (some pt))) := by
      funext k
      simp only [Function.comp_apply, Nat.succ_eq_add_one, monthSeq_shift]
      have hpk : p + (k + 1) = (p + 1) + k := by omega
      rw [hpk]
    rw [hcomp, ← ih (p + 1) (getNextMonth cur)]
    show parceladoLoop bills base pt genId (fuel + 1) p cur = _
    by_cases hd : existsDup bills base.nome base.grupo cur
    · simp [parceladoLoop, monthSeq, hd]
    · simp [parceladoLoop, monthSeq, hd]

/-- C4: the non-fixed installment path walks one consecutive month per
installment number `p` from the entered start to the entered total
(calendar rollover included), emitting at each month a row with
`parcela_atual = p` and `parcela_total` the entered total unless that
month already has a `(nome, grupo, mes_ref)` duplicate; concretely, an
installment bill starting 2026-01 at 1 of 3 yields rows at 2026-01,
2026-02, 2026-03 numbered 1, 2, 3 of 3. -/
theorem installmentCreate_rows (bills : List Bill) (base : BaseBill)
    (pa pt : Nat) (genId : Nat → String) (selectedMonth : String)
    (hf : base.fixa = false) (hp : base.parcelado = true) (h1 : 1 < pt) :
    createBillsToAdd bills base pa pt genId selectedMonth =
      (List.range (pt + 1 - pa)).filterMap (fun k =>
        if existsDup bills base.nome base.grupo (monthSeq selectedMonth k) then none
        else some (mkBill base (genId (pa + k)) (monthSeq selectedMonth k)
          (some (pa + k)) (some pt))) ∧
    createBillsToAdd [] base 1 3 genId "2026-01" =
      [mkBill base (genId 1) "2026-01" (some 1) (some 3),
       mkBill base (genId 2) "2026-02" (some 2) (some 3),
       mkBill base (genId 3) "2026-03" (some 3) (some 3)] := by
  constructor
  · simp only [createBillsToAdd, hf, hp, Bool.false_eq_true, if_false, decide_eq_true h1,
      Bool.and_self, if_true]
    exact parceladoLoop_eq_filterMap bills base pt genId (pt + 1 - pa) pa selectedMonth
  · have h12 : getNextMonth "2026-01" = "2026-02" := by decide
    have h23 : getNextMonth "2026-02" = "2026-03" := by decide
    simp only [createBillsToAdd, hf, hp, Bool.false_eq_true, if_false]
    norm_num
    simp [parceladoLoop, existsDup, h12, h23]

theorem installmentCreate_rows_instance :
    createBillsToAdd [] sampleBaseParc 1 3 sampleGenId "2026-01" =
      [mkBill sampleBaseParc (sampleGenId 1) "2026-01" (some 1) (some 3),
       mkBill sampleBaseParc (sampleGenId 2) "2026-02" (some 2) (some 3),
       mkBill sampleBaseParc (sampleGenId 3) "2026-03" (some 3) (some 3)] :=
  (installmentCreate_rows [] sampleBaseParc 1 3 sampleGenId "2026-01" rfl rfl
    (by decide)).2

/-! ### Claim about the no-duplicate invariant of series generation (C3) -/

theorem existsDup_eq_true_iff (bills : List Bill) (n g mes : String) :
    existsDup bills n g mes = true ↔ (n, g, mes) ∈ bills.map billKey := by
  simp only [existsDup, List.any_eq_true, Bool.and_eq_true, beq_iff_eq, List.mem_map,
    billKey, Prod.mk.injEq]
  tauto

theorem existsDup_eq_false_iff (bills : List Bill) (n g mes : String) :
    existsDup bills n g mes = false ↔ (n, g, mes) ∉ bills.map billKey := by
  rw [← existsDup_eq_true_iff]
  cases h : existsDup bills n g mes <;> simp [h]

theorem existsDup_append (l1 l2 : List Bill) (n g mes : String) :
    existsDup (l1 ++ l2) n g mes = (existsDup l1 n g mes || existsDup l2 n g mes) := by
  simp [existsDup, List.any_append]

theorem fixedRowsAux_map_key (bills : List Bill) (base : BaseBill) (pa pt : Nat)
    (genId : Nat → String) :
    ∀ (ms : List String) (idx : Nat),
      (fixedRowsAux bills base pa pt genId ms idx).map billKey =
        (ms.filter (fun mes => !existsDup bills base.nome base.grupo mes)).map
          (fun mes => (base.nome, base.grupo, mes)) := by
  intro ms
  induction ms with
  | nil => intro idx; rfl
  | cons mes rest ih =>
    intro idx
    by_cases hd : existsDup bills base.nome base.grupo mes
    · simp [fixedRowsAux, hd, List.filter_cons, ih]
    · simp [fixedRowsAux, hd, List.filter_cons, ih, mkBill, billKey]

theorem fixedRowsAux_all_dup (bills : List Bill) (base : BaseBill) (pa pt : Nat)
    (genId : Nat → String) :
    ∀ (ms : List String) (idx : Nat),
      (∀ mes ∈ ms, existsDup bills base.nome base.grupo mes = true) →
      fixedRowsAux bills base pa pt genId ms idx = [] := by
  intro ms
  induction ms with
  | nil => intro idx _; rfl
  | cons mes rest ih =>
    intro idx hall
    have hd : existsDup bills base.nome base.grupo mes = true := hall mes (by simp)
    have hrest : ∀ m ∈ rest, existsDup bills base.nome base.grupo m = true :=
      fun m hm => hall m (by simp [hm])
    simp [fixedRowsAux, hd, ih (idx + 1) hrest]

theorem monthsToApplyCreate_nodup (selectedMonth : String) :
    (monthsToApplyCreate selectedMonth).Nodup := by
  have hM : MONTHS.Nodup := by decide
  unfold monthsToApplyCreate
  cases MONTHS.findIdx? (fun m => m == selectedMonth) with
  | none => simp
  | some i => exact (List.drop_sublist i MONTHS).nodup hM

theorem monthSeq_inj {s : String} (hv : validMonth s) {k1 k2 : Nat}
    (h : monthSeq s k1 = monthSeq s k2) : k1 = k2 := by
  rcases (monthSeq_valid_idx hv k1).2 with ⟨i1, hi1, hk1⟩
  rcases (monthSeq_valid_idx hv k2).2 with ⟨i2, hi2, hk2⟩
  rw [hi1] at hi2
  cases Option.some.inj hi2
  rw [h, hk2] at hk1
  have := Option.some.inj hk1
  omega

theorem parceladoLoop_mem (bills : List Bill) (base : BaseBill) (pt : Nat)
    (genId : Nat → String) (fuel p : Nat) (cur : String) {r : Bill}
    (hr : r ∈ parceladoLoop bills base pt genId fuel p cur) :
    ∃ k, k < fuel ∧ existsDup bills base.nome base.grupo (monthSeq cur k) = false ∧
      r = mkBill base (genId (p + k)) (monthSeq cur k) (some (p + k)) (some pt) := by
  rw [parceladoLoop_eq_filterMap] at hr
  rcases List.mem_filterMap.mp hr with ⟨k, hk, hfk⟩
  by_cases hd : existsDup bills base.nome base.grupo (monthSeq cur k)
  · rw [if_pos hd] at hfk
    cases hfk
  · rw [if_neg hd] at hfk
    exact ⟨k, List.mem_range.mp hk, Bool.eq_false_iff.mpr hd, (Option.some.inj hfk).symm⟩

theorem parceladoLoop_keys_nodup (bills : List Bill) (base : BaseBill) (pt : Nat)
    (genId : Nat → String) (fuel p : Nat) {cur : String} (hv : validMonth cur) :
    ((parceladoLoop bills base pt genId fuel p cur).map billKey).Nodup := by
  rw [parceladoLoop_eq_filterMap, List.map_filterMap]
  apply List.Nodup.filterMap
  · intro a a' key hkeya hkeya'
    by_cases hda : existsDup bills base.nome base.grupo (monthSeq cur a)
    · simp [hda] at hkeya
    · by_cases hda' : existsDup bills base.nome base.grupo (monthSeq cur a')
      · simp [hda'] at hkeya'
      · simp only [Option.mem_def, hda, hda', Bool.false_eq_true, if_false,
          Option.map_some', Option.some.injEq, mkBill, billKey] at hkeya hkeya'
        apply monthSeq_inj hv
        have h1 := hkeya.trans hkeya'.symm
        have h2 := congrArg (fun t : String × String × String => t.2.2) h1
        simpa using h2
  · exact List.nodup_range fuel

/-- C3: starting from a collection with at most one row per
`(nome, grupo, mes_ref)`, the fixed and installment create paths only emit
rows whose key is absent from the existing collection, the resulting
collection keeps the at-most-one-row-per-key invariant, and running the
same fixed-series generation a second time adds no rows.  (The app only
ever selects months of the `MONTHS` list, so the installment walk starts
from a well-formed token.) -/
theorem createPath_noDupKeys (bills : List Bill) (base : BaseBill)
    (pa pt : Nat) (genId genId2 : Nat → String) (selectedMonth : String)
    (hnd : NoDupKeys bills)
    (hpath : base.fixa = true ∨
      (base.parcelado = true ∧ 1 < pt ∧ validMonth selectedMonth)) :
    (∀ r ∈ createBillsToAdd bills base pa pt genId selectedMonth,
      billKey r ∉ bills.map billKey) ∧
    NoDupKeys (handleSaveBillCreate bills base pa pt genId selectedMonth) ∧
    (base.fixa = true →
      handleSaveBillCreate (handleSaveBillCreate bills base pa pt genId selectedMonth)
          base pa pt genId2 selectedMonth
        = handleSaveBillCreate bills base pa pt genId selectedMonth) := by
  have hinj : Function.Injective
      (fun mes : String => (base.nome, base.grupo, mes)) := by
    intro a b h
    simpa using h
  have hmain : (∀ r ∈ createBillsToAdd bills base pa pt genId selectedMonth,
        billKey r ∉ bills.map billKey) ∧
      ((createBillsToAdd bills base pa pt genId selectedMonth).map billKey).Nodup := by
    by_cases hfix : base.fixa = true
    · have htoAdd : createBillsToAdd bills base pa pt genId selectedMonth =
          fixedRowsAux bills base pa pt genId (monthsToApplyCreate selectedMonth) 0 := by
        simp [createBillsToAdd, hfix]
      constructor
      · intro r hr
        rw [htoAdd] at hr
        have hkey : billKey r ∈ (fixedRowsAux bills base pa pt genId
            (monthsToApplyCreate selectedMonth) 0).map billKey :=
          List.mem_map_of_mem billKey hr
        rw [fixedRowsAux_map_key] at hkey
        rcases List.mem_map.mp hkey with ⟨mes, hmes, hEq⟩
        rcases List.mem_filter.mp hmes with ⟨hmem, hdup⟩
        rw [← hEq]
        exact (existsDup_eq_false_iff bills base.nome base.grupo mes).mp
          (by simpa using hdup)
      · rw [htoAdd, fixedRowsAux_map_key]
        exact ((monthsToApplyCreate_nodup selectedMonth).filter _).map hinj
    · rcases hpath with hfix' | ⟨hp, hpt, hv⟩
      · exact absurd hfix' hfix
      · have htoAdd : createBillsToAdd bills base pa pt genId selectedMonth =
            parceladoLoop bills base pt genId (pt + 1 - pa) pa selectedMonth := by
          simp [createBillsToAdd, hfix, hp, hpt]
        constructor
        · intro r hr
          rw [htoAdd] at hr
          rcases parceladoLoop_mem bills base pt genId _ pa selectedMonth hr with
            ⟨k, _, hdup, hrEq⟩
          rw [hrEq]
          exact (existsDup_eq_false_iff bills base.nome base.grupo
            (monthSeq selectedMonth k)).mp hdup
        · rw [htoAdd]
          exact parceladoLoop_keys_nodup bills base pt genId _ pa hv
  refine ⟨hmain.1, ?_, ?_⟩
  · show ((handleSaveBillCreate bills base pa pt genId selectedMonth).map billKey).Nodup
    show (((bills ++ createBillsToAdd bills base pa pt genId selectedMonth)).map billKey).Nodup
    rw [List.map_append, List.nodup_append]
    refine ⟨hnd, hmain.2, ?_⟩
    intro key hkey1 hkey2
    rcases List.mem_map.mp hkey2 with ⟨r, hr, hEq⟩
    exact hmain.1 r hr (by rw [hEq]; exact hkey1)
  · intro hfix
    have htoAdd1 : createBillsToAdd bills base pa pt genId selectedMonth =
        fixedRowsAux bills base pa pt genId (monthsToApplyCreate selectedMonth) 0 := by
      simp [createBillsToAdd, hfix]
    have hall : ∀ mes ∈ monthsToApplyCreate selectedMonth,
        existsDup (handleSaveBillCreate bills base pa pt genId selectedMonth)
          base.nome base.grupo mes = true := by
      intro mes hmes
      show existsDup (bills ++ createBillsToAdd bills base pa pt genId selectedMonth)
        base.nome base.grupo mes = true
      rw [existsDup_append]
      by_cases hd : existsDup bills base.nome base.grupo mes = true
      · simp [hd]
      · have hfalse : existsDup bills base.nome base.grupo mes = false :=
          Bool.eq_false_iff.mpr hd
        have hfilter : mes ∈ (monthsToApplyCreate selectedMonth).filter
            (fun mes => !existsDup bills base.nome base.grupo mes) :=
          List.mem_filter.mpr ⟨hmes, by rw [hfalse]; rfl⟩
        have hkey : (base.nome, base.grupo, mes) ∈
            (createBillsToAdd bills base pa pt genId selectedMonth).map billKey := by
          rw [htoAdd1, fixedRowsAux_map_key]
          exact List.mem_map_of_mem _ hfilter
        have hdup2 := (existsDup_eq_true_iff
          (createBillsToAdd bills base pa pt genId selectedMonth)
          base.nome base.grupo mes).mpr hkey
        simp [hdup2]
    have hempty : createBillsToAdd
        (handleSaveBillCreate bills base pa pt genId selectedMonth)
        base pa pt genId2 selectedMonth = [] := by
      simp only [createBillsToAdd, hfix, if_true]
      exact fixedRowsAux_all_dup _ base pa pt genId2 _ 0 hall
    calc handleSaveBillCreate (handleSaveBillCreate bills base pa pt genId selectedMonth)
          base pa pt genId2 selectedMonth
        = handleSaveBillCreate bills base pa pt genId selectedMonth ++
            createBillsToAdd (handleSaveBillCreate bills base pa pt genId selectedMonth)
              base pa pt genId2 selectedMonth := rfl
      _ = handleSaveBillCreate bills base pa pt genId selectedMonth ++ [] := by rw [hempty]
      _ = handleSaveBillCreate bills base pa pt genId selectedMonth := List.append_nil _

theorem createPath_noDupKeys_instance :
    NoDupKeys (handleSaveBillCreate [] sampleBaseFix 1 1 sampleGenId "2026-11") :=
  (createPath_noDupKeys [] sampleBaseFix 1 1 sampleGenId sampleGenId "2026-11"
    (by simp [NoDupKeys]) (Or.inl rfl)).2.1

/-! ### Claims about the orchestrator (C7, C8, C9, C10) -/

/-- C7: when the amount field does not parse to a number, `handleSaveBill`
returns before any state mutation: the whole state — in particular the
collection, the snapshot and the remote store — is untouched. -/
theorem invalidValor_noMutation (form : FormInput) (editing : Option Bill)
    (genId : Nat → String) (remoteOk : Bool) (s : AppState)
    (h : parseFloat? (replaceFirstComma form.valor) = none) :
    handleSaveBillFn form editing genId remoteOk s = s ∧
    (handleSaveBillFn form editing genId remoteOk s).bills = s.bills ∧
    (handleSaveBillFn form editing genId remoteOk s).localBills = s.localBills ∧
    (handleSaveBillFn form editing genId remoteOk s).remote = s.remote := by
  have hmain : handleSaveBillFn form editing genId remoteOk s = s := by
    unfold handleSaveBillFn
    rw [h]
  exact ⟨hmain, by rw [hmain], by rw [hmain], by rw [hmain]⟩

theorem invalidValor_noMutation_instance :
    handleSaveBillFn sampleFormBad none sampleGenId true sampleState = sampleState :=
  (invalidValor_noMutation sampleFormBad none sampleGenId true sampleState
    (by decide)).1

theorem flushLocal_bills (s : AppState) : (flushLocal s).bills = s.bills := by
  unfold flushLocal
  split <;> rfl

theorem syncBillFn_bills (bill : Bill) (r : Bool) (s : AppState) :
    (syncBillFn bill r s).bills = s.bills := by
  cases r <;> rfl

theorem syncBillFn_localBills (bill : Bill) (r : Bool) (s : AppState) :
    (syncBillFn bill r s).localBills = s.localBills := by
  cases r <;> rfl

theorem toggleStatusFn_found (id : String) (r : Bool) (s : AppState) (b0 : Bill)
    (hfound : s.bills.find? (fun b => b.id == id) = some b0) :
    (toggleStatusFn id r s).bills =
      s.bills.map (fun bill => if bill.id == id
        then { b0 with status := flipStatus b0.status } else bill) := by
  unfold toggleStatusFn
  rw [hfound]
  rw [syncBillFn_bills, flushLocal_bills]

theorem toggleStatusFn_r_indep (id : String) (r : Bool) (s : AppState) :
    (toggleStatusFn id r s).bills = (toggleStatusFn id true s).bills ∧
    (toggleStatusFn id r s).localBills = (toggleStatusFn id true s).localBills := by
  unfold toggleStatusFn
  cases hf : s.bills.find? (fun b => b.id == id)
  · exact ⟨rfl, rfl⟩
  · constructor
    · rw [syncBillFn_bills, syncBillFn_bills]
    · rw [syncBillFn_localBills, syncBillFn_localBills]

theorem deleteBillFn_confirmed (id : String) (r : Bool) (s : AppState) :
    (deleteBillFn id true r s).bills = s.bills.filter (fun bill => bill.id != id) ∧
    (deleteBillFn id true r s).localBills = (deleteBillFn id true true s).localBills := by
  unfold deleteBillFn
  cases r <;> exact ⟨flushLocal_bills _, rfl⟩

theorem handleSaveEditFn_shape (base : BaseBill) (orig : Bill)
    (genId : Nat → String) (r : Bool) (s0 : AppState) :
    (handleSaveEditFn base orig genId r s0).bills =
      handleSaveBillEdit orig base genId s0.bills ∧
    (handleSaveEditFn base orig genId r s0).localBills =
      (handleSaveEditFn base orig genId true s0).localBills ∧
    (handleSaveEditFn base orig genId false s0).syncError =
      some "Erro ao sincronizar" := by
  refine ⟨?_, ?_, rfl⟩
  · cases r <;> exact flushLocal_bills _
  · cases r <;> rfl

theorem handleSaveCreateFn_shape (base : BaseBill) (pa pt : Nat)
    (genId : Nat → String) (r : Bool) (s0 : AppState) :
    (handleSaveCreateFn base pa pt genId r s0).bills =
      (if (createBillsToAdd s0.bills base pa pt genId s0.selectedMonth).isEmpty
       then s0.bills
       else s0.bills ++ createBillsToAdd s0.bills base pa pt genId s0.selectedMonth) ∧
    (handleSaveCreateFn base pa pt genId r s0).localBills =
      (handleSaveCreateFn base pa pt genId true s0).localBills := by
  unfold handleSaveCreateFn
  by_cases hc : (createBillsToAdd s0.bills base pa pt genId s0.selectedMonth).isEmpty
  · constructor
    · simp [hc]
    · cases r <;> simp [hc]
  · have hc' : (createBillsToAdd s0.bills base pa pt genId s0.selectedMonth).isEmpty
        = false := Bool.eq_false_iff.mpr hc
    simp only [hc', Bool.false_eq_true, if_false]
    constructor
    · cases r <;> exact flushLocal_bills _
    · cases r <;> rfl

theorem handleSaveCreateFn_err (base : BaseBill) (pa pt : Nat)
    (genId : Nat → String) (s0 : AppState)
    (hne : createBillsToAdd s0.bills base pa pt genId s0.selectedMonth ≠ []) :
    (handleSaveCreateFn base pa pt genId false s0).syncError =
      some "Erro ao sincronizar" := by
  unfold handleSaveCreateFn
  have hc' : (createBillsToAdd s0.bills base pa pt genId s0.selectedMonth).isEmpty
      = false := by
    cases hl : createBillsToAdd s0.bills base pa pt genId s0.selectedMonth with
    | nil => exact absurd hl hne
    | cons a l => rfl
  simp only [hc', Bool.false_eq_true, if_false]

theorem handleSaveBillFn_edit_eq (form : FormInput) (orig : Bill)
    (genId : Nat → String) (r : Bool) (s : AppState) (v : Rat)
    (hparse : parseFloat? (replaceFirstComma form.valor) = some v) :
    handleSaveBillFn form (some orig) genId r s =
      handleSaveEditFn (mkBase form v) orig genId r
        { s with isSyncing := true, syncError := none } := by
  unfold handleSaveBillFn
  rw [hparse]

theorem handleSaveBillFn_create_eq (form : FormInput)
    (genId : Nat → String) (r : Bool) (s : AppState) (v : Rat)
    (hparse : parseFloat? (replaceFirstComma form.valor) = some v) :
    handleSaveBillFn form none genId r s =
      handleSaveCreateFn (mkBase form v) form.parcela_atual form.parcela_total genId r
        { s with isSyncing := true, syncError := none } := by
  unfold handleSaveBillFn
  rw [hparse]

/-- C8: for each mutation — toggle status, delete, create, edit-cascade —
the collection and snapshot produced by the optimistic local update do not
depend on the remote outcome, and a failed remote call leaves the
collection exactly as the optimistic update computed it, recording only an
error message. -/
theorem optimisticUpdate_remoteFailure (s : AppState) (id : String)
    (form : FormInput) (orig b0 : Bill) (genId : Nat → String) (r : Bool) (v : Rat)
    (hfound : s.bills.find? (fun b => b.id == id) = some b0)
    (hparse : parseFloat? (replaceFirstComma form.valor) = some v)
    (hne : createBillsToAdd s.bills (mkBase form v) form.parcela_atual
      form.parcela_total genId s.selectedMonth ≠ []) :
    ((toggleStatusFn id r s).bills = (toggleStatusFn id true s).bills ∧
     (toggleStatusFn id r s).localBills = (toggleStatusFn id true s).localBills) ∧
    ((deleteBillFn id true r s).bills = (deleteBillFn id true true s).bills ∧
     (deleteBillFn id true r s).localBills = (deleteBillFn id true true s).localBills) ∧
    ((handleSaveBillFn form none genId r s).bills =
        (handleSaveBillFn form none genId true s).bills ∧
     (handleSaveBillFn form none genId r s).localBills =
        (handleSaveBillFn form none genId true s).localBills) ∧
    ((handleSaveBillFn form (some orig) genId r s).bills =
        (handleSaveBillFn form (some orig) genId true s).bills ∧
     (handleSaveBillFn form (some orig) genId r s).localBills =
        (handleSaveBillFn form (some orig) genId true s).localBills) ∧
    ((toggleStatusFn id false s).bills =
        s.bills.map (fun bill => if bill.id == id
          then { b0 with status := flipStatus b0.status } else bill) ∧
     (toggleStatusFn id false s).syncError = some "Erro ao salvar na nuvem") ∧
    ((deleteBillFn id true false s).bills =
        s.bills.filter (fun bill => bill.id != id) ∧
     (deleteBillFn id true false s).syncError = some "Erro ao excluir na nuvem") ∧
    ((handleSaveBillFn form none genId false s).bills =
        s.bills ++ createBillsToAdd s.bills (mkBase form v) form.parcela_atual
          form.parcela_total genId s.selectedMonth ∧
     (handleSaveBillFn form none genId false s).syncError =
        some "Erro ao sincronizar") ∧
    ((handleSaveBillFn form (some orig) genId false s).bills =
        handleSaveBillEdit orig (mkBase form v) genId s.bills ∧
     (handleSaveBillFn form (some orig) genId false s).syncError =
        some "Erro ao sincronizar") := by
  have hbills0 : ({ s with isSyncing := true, syncError := none } : AppState).bills
      = s.bills := rfl
  have hsel0 : ({ s with isSyncing := true, syncError := none } : AppState).selectedMonth
      = s.selectedMonth := rfl
  refine ⟨toggleStatusFn_r_indep id r s, ?_, ?_, ?_, ?_, ?_, ?_, ?_⟩
  · exact ⟨((deleteBillFn_confirmed id r s).1).trans
      ((deleteBillFn_confirmed id true s).1).symm, (deleteBillFn_confirmed id r s).2⟩
  · rw [handleSaveBillFn_create_eq form genId r s v hparse,
      handleSaveBillFn_create_eq form genId true s v hparse]
    exact ⟨((handleSaveCreateFn_shape _ _ _ genId r _).1).trans
        ((handleSaveCreateFn_shape _ _ _ genId true _).1).symm,
      (handleSaveCreateFn_shape _ _ _ genId r _).2⟩
  · rw [handleSaveBillFn_edit_eq form orig genId r s v hparse,
      handleSaveBillFn_edit_eq form orig genId true s v hparse]
    exact ⟨((handleSaveEditFn_shape _ orig genId r _).1).trans
        ((handleSaveEditFn_shape _ orig genId true _).1).symm,
      (handleSaveEditFn_shape _ orig genId r _).2.1⟩
  · constructor
    · exact toggleStatusFn_found id false s b0 hfound
    · unfold toggleStatusFn
      rw [hfound]
      rfl
  · constructor
    · exact (deleteBillFn_confirmed id false s).1
    · unfold deleteBillFn
      rfl
  · constructor
    · rw [handleSaveBillFn_create_eq form genId false s v hparse]
      have h1 := (handleSaveCreateFn_shape (mkBase form v) form.parcela_atual
        form.parcela_total genId false { s with isSyncing := true, syncError := none }).1
      rw [hbills0, hsel0] at h1
      have hc' : (createBillsToAdd s.bills (mkBase form v) form.parcela_atual
          form.parcela_total genId s.selectedMonth).isEmpty = false := by
        cases hl : createBillsToAdd s.bills (mkBase form v) form.parcela_atual
            form.parcela_total genId s.selectedMonth with
        | nil => exact absurd hl hne
        | cons a l => rfl
      rw [hc'] at h1
      simpa using h1
    · rw [handleSaveBillFn_create_eq form genId false s v hparse]
      have hne0 : createBillsToAdd
          ({ s with isSyncing := true, syncError := none } : AppState).bills
          (mkBase form v) form.parcela_atual form.parcela_total genId
          ({ s with isSyncing := true, syncError := none } : AppState).selectedMonth
          ≠ [] := by
        rw [hbills0, hsel0]
        exact hne
      exact handleSaveCreateFn_err (mkBase form v) form.parcela_atual
        form.parcela_total genId _ hne0
  · constructor
    · rw [handleSaveBillFn_edit_eq form orig genId false s v hparse]
      have h1 := (handleSaveEditFn_shape (mkBase form v) orig genId false
        { s with isSyncing := true, syncError := none }).1
      rw [hbills0] at h1
      exact h1
    · rw [handleSaveBillFn_edit_eq form orig genId false s v hparse]
      exact (handleSaveEditFn_shape (mkBase form v) orig genId false _).2.2

theorem parseFloat?_eval_100 : parseFloat? "100" = some 100 := by
  show some ((1 : Rat) * ((digitsVal ['1', '0', '0'] : Rat) +
      (digitsVal ([] : List Char) : Rat) / (10 ^ (List.length ([] : List Char)))))
    = some 100
  have hd1 : digitsVal ['1', '0', '0'] = 100 := by decide
  have hd2 : digitsVal ([] : List Char) = 0 := rfl
  rw [hd1, hd2]
  norm_num

theorem parseFloat?_sampleFormGood :
    parseFloat? (replaceFirstComma sampleFormGood.valor) = some 100 := by
  have h : replaceFirstComma sampleFormGood.valor = "100" := rfl
  rw [h]
  exact parseFloat?_eval_100

theorem optimisticUpdate_remoteFailure_instance :
    (toggleStatusFn "b1" false sampleState).bills =
        sampleState.bills.map (fun bill => if bill.id == "b1"
          then { sampleBill with status := flipStatus sampleBill.status } else bill) ∧
      (toggleStatusFn "b1" false sampleState).syncError =
        some "Erro ao salvar na nuvem" :=
  (optimisticUpdate_remoteFailure sampleState "b1" sampleFormGood sampleBill sampleBill
    sampleGenId false 100 (by decide) parseFloat?_sampleFormGood (by decide)).2.2.2.2.1

theorem find?_map_pres {l : List Bill} {p : Bill → Bool} {g : Bill → Bill}
    (hp : ∀ b, p (g b) = p b) :
    (l.map g).find? p = (l.find? p).map g := by
  induction l with
  | nil => rfl
  | cons b l ih =>
    cases hb : p b
    · simp only [List.map_cons, List.find?_cons, hp b, hb, ih]
    · simp only [List.map_cons, List.find?_cons, hp b, hb, Option.map_some']

theorem mem_id_unique {l : List Bill} (hnd : (l.map Bill.id).Nodup)
    {a b : Bill} (ha : a ∈ l) (hb : b ∈ l) (hab : a.id = b.id) : a = b := by
  rcases List.mem_iff_getElem.mp ha with ⟨i, hi, hia⟩
  rcases List.mem_iff_getElem.mp hb with ⟨j, hj, hjb⟩
  have hi2 : i < (l.map Bill.id).length := by simpa using hi
  have hj2 : j < (l.map Bill.id).length := by simpa using hj
  have hij : (l.map Bill.id)[i] = (l.map Bill.id)[j] := by
    simp only [List.getElem_map]
    rw [hia, hjb]
    exact hab
  have hijn : i = j := (hnd.getElem_inj_iff).mp hij
  subst hijn
  rw [← hia, ← hjb]

/-- C10: `toggleStatus` is a frame-preserving involution on collections
obeying the data model's unique-id invariant: an absent id leaves the
whole state untouched (in particular no remote call happens), a present id
changes exactly that row, flipping its status between pending and paid
with every other field and row unchanged, and toggling the same id twice
restores the original collection. -/
theorem toggleStatus_frame_involution (s : AppState) (id : String) (r r2 : Bool)
    (hnd : (s.bills.map Bill.id).Nodup) :
    (s.bills.find? (fun b => b.id == id) = none → toggleStatusFn id r s = s) ∧
    (∀ st, flipStatus (flipStatus st) = st) ∧
    (toggleStatusFn id r s).bills.length = s.bills.length ∧
    (∀ i : Nat, (toggleStatusFn id r s).bills[i]? =
      (s.bills[i]?).map (fun b =>
        if b.id = id then { b with status := flipStatus b.status } else b)) ∧
    (toggleStatusFn id r2 (toggleStatusFn id r s)).bills = s.bills := by
  have hflip : ∀ st, flipStatus (flipStatus st) = st := by
    intro st
    cases st <;> rfl
  have habs : ∀ r', s.bills.find? (fun b => b.id == id) = none →
      toggleStatusFn id r' s = s := by
    intro r' h
    unfold toggleStatusFn
    rw [h]
  cases hf : s.bills.find? (fun b => b.id == id) with
  | none =>
    have hs := habs r hf
    have hnone : ∀ b ∈ s.bills, (b.id == id) = false := by
      intro b hb
      exact Bool.eq_false_iff.mpr (List.find?_eq_none.mp hf b hb)
    refine ⟨fun _ => hs, hflip, by rw [hs], ?_, ?_⟩
    · intro i
      rw [hs]
      cases hio : s.bills[i]? with
      | none => rfl
      | some b =>
        have hbid : b.id ≠ id := by simpa using hnone b (List.getElem?_mem hio)
        simp [hbid]
    · rw [hs, habs r2 hf]
  | some b0 =>
    have hmem0 : b0 ∈ s.bills := List.mem_of_find?_eq_some hf
    have hid0eq : b0.id = id := by
      have h := List.find?_some hf
      simpa using h
    have hid0 : (b0.id == id) = true := by simp [hid0eq]
    have hbills1 : (toggleStatusFn id r s).bills =
        s.bills.map (fun bill => if bill.id == id
          then { b0 with status := flipStatus b0.status } else bill) :=
      toggleStatusFn_found id r s b0 hf
    have hpg : ∀ b, (((fun bill : Bill => if bill.id == id
        then { b0 with status := flipStatus b0.status } else bill) b).id == id)
        = (b.id == id) := by
      intro b
      by_cases hb : (b.id == id) = true
      · simp only [hb, if_true]
        show (b0.id == id) = true
        exact hid0
      · simp only [hb, Bool.false_eq_true, if_false]
    refine ⟨?_, hflip, ?_, ?_, ?_⟩
    · intro h
      exact absurd h (by simp)
    · rw [hbills1]
      exact List.length_map _ _
    · intro i
      rw [hbills1, List.getElem?_map]
      cases hio : s.bills[i]? with
      | none => rfl
      | some b =>
        simp only [Option.map_some']
        congr 1
        by_cases hb : b.id = id
        · have hbb0 : b = b0 :=
            mem_id_unique hnd (List.getElem?_mem hio) hmem0 (by rw [hb, hid0eq])
          rw [if_pos (show (b.id == id) = true by simp [hb]), if_pos hb, hbb0]
        · rw [if_neg (show ¬ (b.id == id) = true by simp [hb]), if_neg hb]
    · have hf2 : (toggleStatusFn id r s).bills.find? (fun b => b.id == id)
          = some { b0 with status := flipStatus b0.status } := by
        rw [hbills1, find?_map_pres hpg, hf, Option.map_some']
        rw [if_pos hid0]
      have hbills2 := toggleStatusFn_found id r2 (toggleStatusFn id r s)
        { b0 with status := flipStatus b0.status } hf2
      rw [hbills2, hbills1, List.map_map]
      have hpoint : ∀ b ∈ s.bills,
          ((fun bill : Bill => if bill.id == id
              then { { b0 with status := flipStatus b0.status } with
                status := flipStatus
                  ({ b0 with status := flipStatus b0.status } : Bill).status }
              else bill) ∘
            (fun bill : Bill => if bill.id == id
              then { b0 with status := flipStatus b0.status } else bill)) b = b := by
        intro b hb
        simp only [Function.comp_apply]
        by_cases hbid : (b.id == id) = true
        · have hbb0 : b = b0 :=
            mem_id_unique hnd hb hmem0 (by rw [hid0eq]; simpa using hbid)
          rw [if_pos hbid, if_pos (show ((({ b0 with
            status := flipStatus b0.status } : Bill)).id == id) = true from hid0)]
          show ({ b0 with status := flipStatus (flipStatus b0.status) } : Bill) = b
          rw [hflip b0.status, hbb0]
        · rw [if_neg (show ¬ (((fun bill : Bill => if bill.id == id
              then { b0 with status := flipStatus b0.status } else bill) b).id == id)
              = true by rw [hpg b]; exact hbid),
            if_neg hbid]
      rw [List.map_congr_left hpoint]
      simp

theorem toggleStatus_frame_involution_instance :
    (toggleStatusFn "b1" true (toggleStatusFn "b1" false sampleState)).bills =
      sampleState.bills :=
  (toggleStatus_frame_involution sampleState "b1" false true (by decide)).2.2.2.2

theorem flushLocal_establishes (s : AppState) :
    (flushLocal s).bills ≠ [] → (flushLocal s).localBills = some (flushLocal s).bills := by
  unfold flushLocal
  by_cases h : s.bills.length > 0
  · rw [if_pos h]
    intro _
    rfl
  · rw [if_neg h]
    intro hne
    exact absurd (List.length_pos.mpr hne) h

theorem inv_of_flush_fields (t s : AppState)
    (hb : t.bills = (flushLocal s).bills)
    (hl : t.localBills = (flushLocal s).localBills) :
    t.bills ≠ [] → t.localBills = some t.bills := by
  intro hne
  rw [hb] at hne ⊢
  rw [hl]
  exact flushLocal_establishes s hne

theorem step_preserves_inv {s t : AppState}
    (hs : s.bills ≠ [] → s.localBills = some s.bills) (hstep : Step s t) :
    t.bills ≠ [] → t.localBills = some t.bills := by
  cases hstep with
  | mount =>
    unfold mountLoadFn
    cases hl : s.localBills with
    | some saved => exact inv_of_flush_fields _ _ rfl rfl
    | none => exact inv_of_flush_fields _ _ rfl rfl
  | fetch r i =>
    unfold fetchBillsFn
    split
    · exact fun hne => hs hne
    · split
      · exact inv_of_flush_fields _ _ rfl rfl
      · split
        · split
          · exact fun hne => hs hne
          · split
            · exact fun hne => hs hne
            · exact fun hne => hs hne
        · split
          · exact inv_of_flush_fields _ _ rfl rfl
          · exact fun hne => hs hne
  | selectMonth m hm => exact fun hne => hs hne
  | toggle id r =>
    unfold toggleStatusFn
    cases hf : s.bills.find? (fun b => b.id == id) with
    | none => exact hs
    | some b0 =>
      exact inv_of_flush_fields _ _ (syncBillFn_bills _ _ _) (syncBillFn_localBills _ _ _)
  | del id c r =>
    unfold deleteBillFn
    cases c with
    | false => exact hs
    | true => cases r <;> exact inv_of_flush_fields _ _ rfl rfl
  | save form editing genId r =>
    unfold handleSaveBillFn
    cases hp : parseFloat? (replaceFirstComma form.valor) with
    | none => exact hs
    | some v =>
      cases editing with
      | some orig =>
        unfold handleSaveEditFn
        dsimp only
        split
        · exact inv_of_flush_fields _ _ rfl rfl
        · exact inv_of_flush_fields _ _ rfl rfl
      | none =>
        unfold handleSaveCreateFn
        dsimp only
        split
        · exact fun hne => hs hne
        · split
          · exact inv_of_flush_fields _ _ rfl rfl
          · exact inv_of_flush_fields _ _ rfl rfl
  | renameGroup oldN newN a r =>
    unfold handleRenameGroupFn
    split
    · dsimp only
      split
      · exact inv_of_flush_fields _ _ rfl rfl
      · split
        · exact inv_of_flush_fields _ _ rfl rfl
        · exact inv_of_flush_fields _ _ rfl rfl
    · exact hs
  | deleteGroup g c r =>
    unfold handleDeleteGroupFn
    split
    · dsimp only
      split
      · exact inv_of_flush_fields _ _ rfl rfl
      · split
        · exact inv_of_flush_fields _ _ rfl rfl
        · exact inv_of_flush_fields _ _ rfl rfl
    · exact hs
  | syncAll r =>
    unfold forceSyncAllFn
    split
    · exact hs
    · split
      · exact fun hne => hs hne
      · exact fun hne => hs hne

/-- C9 as stated is refuted: deleting the only bill empties the
collection, but the snapshot-writing effect skips empty collections, so
the reachable post-delete state keeps the stale one-element snapshot
instead of the current (empty) collection. -/
theorem localFlush_empty_cex :
    Reachable (deleteBillFn "b1" true true
      (mountLoadFn (initialState (some [sampleBill]) [sampleBill]))) ∧
    (deleteBillFn "b1" true true
      (mountLoadFn (initialState (some [sampleBill]) [sampleBill]))).bills = [] ∧
    (deleteBillFn "b1" true true
      (mountLoadFn (initialState (some [sampleBill]) [sampleBill]))).localBills =
      some [sampleBill] ∧
    (deleteBillFn "b1" true true
      (mountLoadFn (initialState (some [sampleBill]) [sampleBill]))).localBills ≠
      some (deleteBillFn "b1" true true
        (mountLoadFn (initialState (some [sampleBill]) [sampleBill]))).bills := by
  refine ⟨⟨some [sampleBill], [sampleBill], ?_⟩, by decide, by decide, by decide⟩
  exact Relation.ReflTransGen.tail
    (Relation.ReflTransGen.single (Step.mount _))
    (Step.del _ "b1" true true)

/-- C9 (amended): the orchestrator flushes the collection to the snapshot
store after every mutation that leaves it non-empty, so in every reachable
state with a non-empty collection the stored list equals the in-memory
collection; a mutation that empties the collection leaves the previous
snapshot in place. -/
theorem localFlush_invariant (s : AppState) (h : Reachable s) :
    s.bills ≠ [] → s.localBills = some s.bills := by
  rcases h with ⟨l, rm, hreach⟩
  induction hreach with
  | refl =>
    intro hne
    exact absurd rfl hne
  | tail hab hbc ih => exact step_preserves_inv ih hbc

theorem localFlush_invariant_instance :
    (mountLoadFn (initialState (some [sampleBill]) [])).localBills =
      some (mountLoadFn (initialState (some [sampleBill]) [])).bills :=
  localFlush_invariant _
    ⟨some [sampleBill], [], Relation.ReflTransGen.single (Step.mount _)⟩
    (by decide)
